import Mathlib

/-!
Verification development for the retrieval-augmented question-answering
notebook (`notebook-solution.ipynb`).  The notebook is linear glue code over
external libraries; the pure computations it performs (the cost estimate) are
embedded directly from the code, and the behaviour of the wrapped library
operations (the text splitter, the vector-store query) is modelled from the
specification, since the library implementations are not part of this
repository's sources.

Python floating-point arithmetic is modelled over exact rationals `ℚ`, and
document/chunk texts are modelled as `List Char`.
-/

namespace Spec2Proof

/-! ### Token counter / cost estimator (notebook cell: tiktoken counting)

Embedded from the source:
`doc_tokens = [len(encoder.encode(d.page_content)) for d in documents]`,
`total_tokens = sum(doc_tokens)`,
`cost_estimate = (sum(doc_tokens)/1000) * 0.0004`. -/

/-- The price charged per 1000 input tokens, `0.0004` dollars in the source. -/
def price_per_1k_tokens : ℚ := 4 / 10000

/-- `total_tokens = sum(doc_tokens)` from the source. -/
def total_tokens (doc_tokens : List ℕ) : ℕ := doc_tokens.sum

/-- `cost_estimate = (sum(doc_tokens)/1000) * 0.0004` from the source. -/
def cost_estimate (doc_tokens : List ℕ) : ℚ :=
  ((doc_tokens.sum : ℚ) / 1000) * price_per_1k_tokens

/-- Claim C1: the cost estimate equals `(total_tokens / 1000) * price_per_1k_tokens`;
150,000 tokens at $0.0004 per 1k tokens yield an estimate of $0.06; and the
estimate is monotonically non-decreasing in the total token count. -/
theorem C1_cost_estimate (dt dt' : List ℕ)
    (h : total_tokens dt ≤ total_tokens dt') :
    cost_estimate dt = ((total_tokens dt : ℚ) / 1000) * price_per_1k_tokens
    ∧ (total_tokens dt = 150000 → cost_estimate dt = 6 / 100)
    ∧ cost_estimate dt ≤ cost_estimate dt' := by
  refine ⟨rfl, ?_, ?_⟩
  · intro h150
    unfold cost_estimate price_per_1k_tokens
    unfold total_tokens at h150
    rw [h150]
    norm_num
  · unfold cost_estimate price_per_1k_tokens
    have hc : (total_tokens dt : ℚ) ≤ (total_tokens dt' : ℚ) := by exact_mod_cast h
    unfold total_tokens at hc
    gcongr

/-- Witness for C1 at the concrete inputs of the spec's example:
document token lists summing to 150,000 and 150,025 tokens. -/
theorem C1_cost_estimate_witness :
    total_tokens [150000] ≤ total_tokens [150000, 25]
    ∧ (cost_estimate [150000]
          = ((total_tokens [150000] : ℚ) / 1000) * price_per_1k_tokens
       ∧ (total_tokens [150000] = 150000 → cost_estimate [150000] = 6 / 100)
       ∧ cost_estimate [150000] ≤ cost_estimate [150000, 25]) :=
  ⟨by decide, C1_cost_estimate [150000] [150000, 25] (by decide)⟩

/-! ### Embedding & vector store query -/

/-- A persisted vector store entry: `(id, text, vector)` triple, as in the
spec's data model (metadata omitted: no claim mentions it). -/
structure Entry where
  id : String
  text : String
  vector : List ℚ
deriving DecidableEq, Repr

/-- Modelled from the spec: vector distance between the query embedding and a
stored embedding (squared Euclidean distance over the paired coordinates);
the exact metric is owned by the external vector-store library, and only
ordering by it matters to the claims. -/
def sqDist (u v : List ℚ) : ℚ := (List.zipWith (fun a b => (a - b) ^ 2) u v).sum

/-- Ordering of scored entries by non-decreasing distance. -/
def distLe (a b : Entry × ℚ) : Prop := a.2 ≤ b.2

instance : DecidableRel distLe := fun a b => by
  unfold distLe; infer_instance

instance : IsTotal (Entry × ℚ) distLe := ⟨fun a b => le_total a.2 b.2⟩

instance : IsTrans (Entry × ℚ) distLe := ⟨fun _ _ _ hab hbc => le_trans hab hbc⟩

/-- Modelled from the spec: `query(text, k)` embeds `text` with the same
embedding model used at ingestion (`embed`), scores every stored entry by
vector distance, and returns the `k` closest entries ordered by ascending
distance. -/
def query (embed : String → List ℚ) (store : List Entry) (text : String)
    (k : ℕ) : List (Entry × ℚ) :=
  (List.insertionSort distLe
    (store.map (fun e => (e, sqDist (embed text) e.vector)))).take k

/-- Claim C2: `query(text, k)` returns at most `k` results, ordered by
non-decreasing distance. -/
theorem C2_query_at_most_k_sorted (embed : String → List ℚ)
    (store : List Entry) (text : String) (k : ℕ) :
    (query embed store text k).length ≤ k
    ∧ (query embed store text k).Sorted distLe := by
  constructor
  · exact List.length_take_le k _
  · exact List.Pairwise.sublist (List.take_sublist k _)
      (List.sorted_insertionSort distLe _)

/-- Claim C7: retrieval is a deterministic function of the store contents and
the query text — two executions of `query` against equal stores with equal
query texts (and the same embedding model) return the same ordered sequence. -/
theorem C7_query_deterministic (embed : String → List ℚ)
    (s₁ s₂ : List Entry) (t₁ t₂ : String) (k₁ k₂ : ℕ)
    (hs : s₁ = s₂) (ht : t₁ = t₂) (hk : k₁ = k₂) :
    query embed s₁ t₁ k₁ = query embed s₂ t₂ k₂ := by
  rw [hs, ht, hk]

/-- A small concrete store used by witnesses. -/
def wStore : List Entry :=
  [⟨"0", "alpha", [0, 1]⟩, ⟨"1", "beta", [3, 4]⟩]

/-- Witness for C7: two runs of the same query on the same concrete store. -/
theorem C7_query_deterministic_witness :
    query (fun _ => [0, 0]) wStore "how to load data from wikipedia?" 2
      = query (fun _ => [0, 0]) wStore "how to load data from wikipedia?" 2 :=
  C7_query_deterministic (fun _ => [0, 0]) wStore wStore
    "how to load data from wikipedia?" "how to load data from wikipedia?"
    2 2 rfl rfl rfl

/-- The wrapped library's default for the number of results, `k = 4`. -/
def DEFAULT_K : ℕ := 4

/-- `db.similarity_search_with_score(text)`, called without an explicit `k`
in the source: queries with the library default `DEFAULT_K = 4`. -/
def similarity_search_with_score (embed : String → List ℚ)
    (store : List Entry) (text : String) : List (Entry × ℚ) :=
  query embed store text DEFAULT_K

/-- `db.similarity_search(text)`, called without an explicit `k` in the
source: the same query, returning the entries without their scores. -/
def similarity_search (embed : String → List ℚ) (store : List Entry)
    (text : String) : List Entry :=
  (query embed store text DEFAULT_K).map Prod.fst

/-- Claim C9: invoked without an explicit `k`, as at every call site of the
program, the similarity-search operations return at most 4 results. -/
theorem C9_default_k_at_most_four (embed : String → List ℚ)
    (store : List Entry) (text : String) :
    (similarity_search_with_score embed store text).length ≤ 4
    ∧ (similarity_search embed store text).length ≤ 4 := by
  constructor
  · exact List.length_take_le 4 _
  · unfold similarity_search
    rw [List.length_map]
    exact List.length_take_le 4 _

/-! ### Chunker -/

/-- Modelled from the spec: the last-resort raw character-boundary split —
cut the text into consecutive pieces of at most `max` characters.  Fuelled by
the input length so the recursion is structural; the fuel is always
sufficient in `chunkEvery` below. -/
def chunkEveryGo (max : ℕ) : ℕ → List Char → List (List Char)
  | 0, _ => []
  | _ + 1, [] => []
  | n + 1, c :: cs => (c :: cs).take max :: chunkEveryGo max n ((c :: cs).drop max)

/-- Raw character-boundary chunking of a text into pieces of at most `max`
characters. -/
def chunkEvery (max : ℕ) (text : List Char) : List (List Char) :=
  chunkEveryGo max text.length text

/-- Modelled from the spec (4.2): the boundary-seeking recursive split.
`seps` is the priority list of boundary characters (paragraph, sentence,
word); a piece that fits within `max` characters is kept whole, an oversized
piece is split at the highest-priority boundary and the parts are split
recursively at the lower-priority boundaries, falling back to raw character
boundaries when no separator is left.  (The overlap augmentation of the
chunker is modelled separately by `slidingChunks`.) -/
def splitRec (max : ℕ) : List Char → List Char → List (List Char)
  | seps, text =>
    if text.length ≤ max then [text]
    else
      match seps with
      | [] => chunkEvery max text
      | sep :: rest =>
          ((text.splitOn sep).map (fun p => splitRec max rest p)).flatten

/-- Every piece produced by the raw character-boundary split has at most
`max` characters. -/
theorem chunkEveryGo_length_le (max : ℕ) :
    ∀ (n : ℕ) (l : List Char), ∀ c ∈ chunkEveryGo max n l, c.length ≤ max := by
  intro n
  induction n with
  | zero => intro l c hc; simp [chunkEveryGo] at hc
  | succ n ih =>
      intro l c hc
      match l with
      | [] => simp [chunkEveryGo] at hc
      | x :: xs =>
          rw [chunkEveryGo] at hc
          rcases List.mem_cons.1 hc with hc | hc
          · rw [hc]; exact List.length_take_le max _
          · exact ih _ c hc

/-- Claim C3: every chunk produced by the boundary-seeking splitter has at
most `max` characters (the raw character-boundary fallback guarantees the
bound even for a single word longer than the limit, so the atomic-unit
exception of the claim is never needed). -/
theorem C3_chunk_length_le (max : ℕ) :
    ∀ (seps text : List Char), ∀ chunk ∈ splitRec max seps text,
      chunk.length ≤ max := by
  intro seps
  induction seps with
  | nil =>
      intro text chunk hc
      rw [splitRec] at hc
      by_cases h : text.length ≤ max
      · rw [if_pos h] at hc
        rw [List.mem_singleton] at hc
        exact hc ▸ h
      · rw [if_neg h] at hc
        exact chunkEveryGo_length_le max _ _ chunk hc
  | cons sep rest ih =>
      intro text chunk hc
      rw [splitRec] at hc
      by_cases h : text.length ≤ max
      · rw [if_pos h] at hc
        rw [List.mem_singleton] at hc
        exact hc ▸ h
      · rw [if_neg h] at hc
        rcases List.mem_flatten.1 hc with ⟨piece, hpiece, hcp⟩
        rcases List.mem_map.1 hpiece with ⟨p, _, hp⟩
        exact ih p chunk (hp ▸ hcp)

/-- Witness for C3: the chunk "Alpha" produced from the concrete document
"Alpha Beta Gamma" with `max_chunk_size = 6` fits within the limit. -/
theorem C3_chunk_length_le_witness :
    "Alpha".data ∈ splitRec 6 ['\n', '.', ' '] "Alpha Beta Gamma".data
    ∧ ("Alpha".data).length ≤ 6 :=
  ⟨by decide,
   C3_chunk_length_le 6 ['\n', '.', ' '] "Alpha Beta Gamma".data
     "Alpha".data (by decide)⟩

/-- Sanity check of the embedding: with a positive chunk size, the raw
character-boundary split loses no text. -/
theorem chunkEveryGo_flatten (max : ℕ) (hmax : 0 < max) :
    ∀ (n : ℕ) (l : List Char), l.length ≤ n →
      (chunkEveryGo max n l).flatten = l := by
  intro n
  induction n with
  | zero =>
      intro l hl
      have : l = [] := List.eq_nil_of_length_eq_zero (Nat.le_zero.1 hl)
      rw [this]
      simp [chunkEveryGo]
  | succ n ih =>
      intro l hl
      match l with
      | [] => simp [chunkEveryGo]
      | x :: xs =>
          rw [chunkEveryGo, List.flatten_cons, ih]
          · exact List.take_append_drop max (x :: xs)
          · rw [List.length_drop]
            simp only [List.length_cons] at hl ⊢
            omega

/-- Modelled from the spec (3, 4.2): the overlap behaviour of the chunker as
a sliding window over the document text — each chunk holds the next `max`
characters, and consecutive chunks start `max - ov` characters apart, so the
configured number `ov` of trailing characters of a chunk reappears at the
head of the next chunk.  Fuelled by the input length so the recursion is
structural; the fuel is always sufficient in `slidingChunks` below. -/
def slidingChunksGo (max ov : ℕ) : ℕ → List Char → List (List Char)
  | 0, text => [text]
  | n + 1, text =>
    if text.length ≤ max ∨ max ≤ ov then [text]
    else text.take max :: slidingChunksGo max ov n (text.drop (max - ov))

/-- The chunks of a document text under the sliding-window chunker. -/
def slidingChunks (max ov : ℕ) (text : List Char) : List (List Char) :=
  slidingChunksGo max ov text.length text

/-- Two adjacent chunks share `ov` characters: the `ov` trailing characters
of the first are exactly the `ov` leading characters of the second. -/
def sharesOverlap (ov : ℕ) (a b : List Char) : Prop :=
  ov ≤ a.length ∧ ov ≤ b.length ∧ a.drop (a.length - ov) = b.take ov

/-- Overlap-aware re-joining: keep the first chunk whole and strip the known
`ov` leading characters from every later chunk before concatenating. -/
def rejoin (ov : ℕ) : List (List Char) → List Char
  | [] => []
  | c :: cs => c ++ (cs.map (List.drop ov)).flatten

theorem dropJoin_slidingChunksGo (max ov : ℕ) :
    ∀ (n : ℕ) (t : List Char),
      ((slidingChunksGo max ov n t).map (List.drop ov)).flatten = t.drop ov := by
  intro n
  induction n with
  | zero => intro t; simp [slidingChunksGo]
  | succ n ih =>
      intro t
      rw [slidingChunksGo]
      by_cases h : t.length ≤ max ∨ max ≤ ov
      · rw [if_pos h]; simp
      · rw [if_neg h]
        push_neg at h
        rw [List.map_cons, List.flatten_cons, ih]
        rw [List.drop_take, List.drop_drop]
        have h3 : t.drop (max - ov + ov) = (t.drop ov).drop (max - ov) := by
          rw [List.drop_drop, Nat.add_comm]
        rw [h3, List.take_append_drop]

theorem rejoin_slidingChunksGo (max ov : ℕ) :
    ∀ (n : ℕ) (t : List Char), rejoin ov (slidingChunksGo max ov n t) = t := by
  intro n
  induction n with
  | zero => intro t; simp [slidingChunksGo, rejoin]
  | succ n _ =>
      intro t
      rw [slidingChunksGo]
      by_cases h : t.length ≤ max ∨ max ≤ ov
      · rw [if_pos h]; simp [rejoin]
      · rw [if_neg h]
        push_neg at h
        rw [rejoin, dropJoin_slidingChunksGo]
        rw [List.drop_drop, Nat.sub_add_cancel (le_of_lt h.2),
          List.take_append_drop]

/-- Claim C4: re-joining the chunk texts in order, after stripping the known
`ov`-character overlap from every chunk but the first, reconstructs the
original document text. -/
theorem C4_rejoin_roundtrip (max ov : ℕ) (text : List Char)
    (_hov : ov < max) :
    rejoin ov (slidingChunks max ov text) = text :=
  rejoin_slidingChunksGo max ov text.length text

/-- Witness for C4: the concrete document "Alpha Beta Gamma" with
`max_chunk_size = 10`, `overlap_size = 2`. -/
theorem C4_rejoin_roundtrip_witness :
    (2 : ℕ) < 10
    ∧ rejoin 2 (slidingChunks 10 2 "Alpha Beta Gamma".data)
        = "Alpha Beta Gamma".data :=
  ⟨by decide, C4_rejoin_roundtrip 10 2 "Alpha Beta Gamma".data (by decide)⟩

/-- The first chunk the sliding-window chunker emits on `t` is either `t`
itself (when `t` fits, the overlap is misconfigured, or the fuel is spent) or
the first `max` characters of `t`. -/
theorem slidingChunksGo_head (max ov : ℕ) :
    ∀ (n : ℕ) (t : List Char),
      (slidingChunksGo max ov n t).head? = some t
      ∨ (slidingChunksGo max ov n t).head? = some (t.take max) := by
  intro n t
  match n with
  | 0 => left; rfl
  | n + 1 =>
      rw [slidingChunksGo]
      by_cases h : t.length ≤ max ∨ max ≤ ov
      · rw [if_pos h]; left; rfl
      · rw [if_neg h]; right; rfl

theorem chain'_sharesOverlap_slidingChunksGo (max ov : ℕ) :
    ∀ (n : ℕ) (t : List Char),
      List.Chain' (sharesOverlap ov) (slidingChunksGo max ov n t) := by
  intro n
  induction n with
  | zero => intro t; exact List.chain'_singleton t
  | succ n ih =>
      intro t
      rw [slidingChunksGo]
      by_cases h : t.length ≤ max ∨ max ≤ ov
      · rw [if_pos h]; exact List.chain'_singleton t
      · rw [if_neg h]
        push_neg at h
        have hlen : max < t.length := h.1
        have hov : ov < max := h.2
        refine List.chain'_cons'.2 ⟨?_, ih (t.drop (max - ov))⟩
        intro y hy
        set t' := t.drop (max - ov) with ht'
        have hlen' : ov < t'.length := by
          rw [ht', List.length_drop]; omega
        have htakelen : (t.take max).length = max := by
          rw [List.length_take]; omega
        have hdrop : (t.take max).drop (max - ov) = t'.take ov := by
          rw [List.drop_take, ht']
          have : max - (max - ov) = ov := by omega
          rw [this]
        have hy' : y = t' ∨ y = t'.take max := by
          rcases slidingChunksGo_head max ov n t' with hh | hh
          · left
            have := hy
            rw [hh] at this
            exact (Option.some_inj.1 this).symm
          · right
            have := hy
            rw [hh] at this
            exact (Option.some_inj.1 this).symm
        refine ⟨?_, ?_, ?_⟩
        · rw [htakelen]; exact le_of_lt hov
        · rcases hy' with rfl | rfl
          · exact le_of_lt hlen'
          · rw [List.length_take]; omega
        · rw [htakelen, hdrop]
          rcases hy' with rfl | rfl
          · rfl
          · rw [List.take_take, Nat.min_eq_left (le_of_lt hov)]

/-- Claim C5: each pair of adjacent chunks of a document shares exactly
`ov` characters — the configured number of trailing characters of one chunk
is repeated as the leading characters of the next chunk. -/
theorem C5_adjacent_overlap (max ov : ℕ) (text : List Char)
    (_hov : ov < max) :
    List.Chain' (sharesOverlap ov) (slidingChunks max ov text) :=
  chain'_sharesOverlap_slidingChunksGo max ov text.length text

/-- Witness for C5: the concrete document "Alpha Beta Gamma" with
`max_chunk_size = 10`, `overlap_size = 2`. -/
theorem C5_adjacent_overlap_witness :
    (2 : ℕ) < 10
    ∧ List.Chain' (sharesOverlap 2) (slidingChunks 10 2 "Alpha Beta Gamma".data) :=
  ⟨by decide, C5_adjacent_overlap 10 2 "Alpha Beta Gamma".data (by decide)⟩

/-! ### Retrieval-augmented chat (notebook cell: prompt, LLMChain, ChatOpenAI) -/

/-- A chat-completion request: the filled prompt and the sampling
temperature. -/
structure ChatRequest where
  prompt : String
  temperature : ℚ
deriving DecidableEq, Repr

/-- The fixed prompt template string of the source (the triple-quoted Python
literal opens with a stray quote character, reproduced faithfully). -/
def prompt_template : String :=
  "\"Use the following pieces of context to answer the question at the end. If you don't know the answer, just say that you don't know, don't try to make up an answer.\n\n<context>\n{context}\n</context>\n\nQuestion: {question}\nHelpful Answer:"

/-- Substitution of the two input variables `context` and `question` into the
fixed prompt template. -/
def fillTemplate (context question : String) : String :=
  (prompt_template.replace "{context}" context).replace "{question}" question

/-- The chat-completion request that the chain builds for a question: the
retrieved chunk texts joined with a newline separator become `context`, the
question becomes `question`, and the temperature is the source's
`ChatOpenAI(temperature=0)`. -/
def ragRequest (embed : String → List ℚ) (store : List Entry)
    (question : String) : ChatRequest :=
  ⟨fillTemplate
      (String.intercalate "\n"
        ((similarity_search embed store question).map Entry.text))
      question,
    0⟩

/-- Embedded from the source cell: query the store for the question, join the
retrieved chunk texts with a newline, fill the prompt template, and send the
request to the chat-completion API (`chat`, the external service). -/
def qa_chain (embed : String → List ℚ) (store : List Entry)
    (chat : ChatRequest → String) (question : String) : String :=
  let context_docs := similarity_search embed store question
  let context := String.intercalate "\n" (context_docs.map Entry.text)
  chat ⟨fillTemplate context question, 0⟩

/-- Claim C6: the retrieval-augmented chat stage is exactly the composition
of (a) querying the store with the question, (b) joining the retrieved chunk
texts with a separator, (c) substituting `context` and `question` into the
fixed prompt template, (d) one chat-completion call at temperature 0, whose
(e) response text is returned. -/
theorem C6_qa_chain_steps (embed : String → List ℚ) (store : List Entry)
    (chat : ChatRequest → String) (question : String) :
    qa_chain embed store chat question = chat (ragRequest embed store question)
    ∧ (ragRequest embed store question).temperature = 0
    ∧ similarity_search embed store question
        = (query embed store question DEFAULT_K).map Prod.fst
    ∧ (ragRequest embed store question).prompt
        = fillTemplate
            (String.intercalate "\n"
              ((similarity_search embed store question).map Entry.text))
            question :=
  ⟨rfl, rfl, rfl, rfl⟩

/-! ### Startup configuration and pipeline ordering (claim C8)

The notebook's executable cells, in order: load the HTML documentation
(`ReadTheDocsLoader`), split it (`RecursiveCharacterTextSplitter`), count
tokens (`tiktoken`), construct the embedding client and open the store
(`OpenAIEmbeddings` / `Chroma`), query the store, and run the chat chain.
Only the stages that construct or use an OpenAI client require the
`OPENAI_API_KEY` credential; the first three cells never read it. -/

/-- The pipeline stages of the notebook, in execution order. -/
inductive Stage
  | loadDocs
  | splitDocs
  | countTokens
  | embedStore
  | retrieve
  | chatStage
deriving DecidableEq, Repr

/-- Which stages read the API credential: constructing `OpenAIEmbeddings`,
querying through it, and calling `ChatOpenAI` do; loading, splitting and
token counting do not. -/
def requiresApiKey : Stage → Bool
  | .embedStore => true
  | .retrieve => true
  | .chatStage => true
  | _ => false

/-- The stage order of the executed notebook cells. -/
def notebookStages : List Stage :=
  [.loadDocs, .splitDocs, .countTokens, .embedStore, .retrieve, .chatStage]

/-- Run the stages in order with the given credential from the process
environment: a stage that requires the missing credential raises a fatal
error, aborting the rest; the result is the list of stages that completed
before the error (all of them, when no error occurred) and a success flag. -/
def runStages (apiKey : Option String) : List Stage → List Stage × Bool
  | [] => ([], true)
  | s :: rest =>
      if requiresApiKey s && apiKey.isNone then ([], false)
      else
        let r := runStages apiKey rest
        (s :: r.1, r.2)

/-- Counterexample to claim C8 as stated: with the credential absent the run
does fail, but not before any pipeline stage runs — the completed-stage list
is non-empty. -/
theorem C8_counterexample :
    (runStages none notebookStages).2 = false
    ∧ (runStages none notebookStages).1 ≠ [] := by
  decide

/-- Claim C8 (amended): if the API credential environment variable is absent,
the program fails with a fatal configuration error when the embedding client
is constructed — document loading, chunking and token counting have already
run by then, and no embedding, retrieval or chat stage runs; with the
credential present, every stage runs. -/
theorem C8_missing_key_fails_at_embedding :
    runStages none notebookStages
      = ([.loadDocs, .splitDocs, .countTokens], false)
    ∧ (∀ k : String, runStages (some k) notebookStages
        = (notebookStages, true)) := by
  constructor
  · decide
  · intro k
    rfl

/-! ### Executed store operations (claim C10)

In the executed code path, `Chroma.from_documents(...)` and `db.persist()`
are commented out; the run opens the pre-existing persisted store
(`Chroma(persist_directory=...)`) and only queries it. -/

/-- Operations against the persisted vector store. -/
inductive StoreOp
  | loadPersisted
  | fromDocuments (chunks : List Entry)
  | persist
  | search (q : String)
deriving DecidableEq

/-- Effect of a store operation on the on-disk store contents: ingestion
appends the embedded chunks; opening and querying leave the disk unchanged. -/
def applyStoreOp (disk : List Entry) : StoreOp → List Entry
  | .fromDocuments cs => disk ++ cs
  | _ => disk

/-- Whether an operation writes the store (creates or persists embeddings). -/
def isIngestOp : StoreOp → Bool
  | .fromDocuments _ => true
  | .persist => true
  | _ => false

/-- The store operations the executed (non-commented) cells perform, in
order: open the persisted store, then the two similarity-search queries. -/
def executedStoreOps : List StoreOp :=
  [.loadPersisted,
   .search "how to load data from wikipedia?",
   .search "how can I make a chain remember previous messages?"]

/-- Claim C10: the executed code path performs no ingestion operation, and
the on-disk vector store contents are unchanged across all query and chat
operations of the run. -/
theorem C10_store_unchanged (disk : List Entry) :
    executedStoreOps.foldl applyStoreOp disk = disk
    ∧ executedStoreOps.all (fun op => !isIngestOp op) = true :=
  ⟨rfl, rfl⟩

end Spec2Proof
